import Mathlib

/-!
Verification of the media-download pipeline: extractor dispatch, stream
selection, the download engine's retry/cleanup behavior, the generic HTTP
extractor, the audio conversion adapter, and the orchestrator's job-table
bookkeeping.  Definitions are shallow embeddings of the TypeScript source
(MediaDownloader, HttpClient.downloadFile, HttpExtractor, AudioProcessor).
-/

namespace MDU

/-- Status values of a DownloadProgress record (core/index.ts). -/
inductive JobStatus
  | pending
  | downloading
  | completed
  | error
  | paused
  deriving DecidableEq

/-- StreamInfo from core/index.ts: one retrievable media variant. -/
structure StreamInfo where
  url : String
  format : String
  quality : String
  fileSize : Option Nat := none
  deriving DecidableEq

/-- SubtitleInfo from core/index.ts. -/
structure SubtitleInfo where
  url : String
  language : String
  format : String
  deriving DecidableEq

/-- ExtractResult from core/index.ts (description/duration/thumbnail omitted:
no claim mentions them). -/
structure ExtractResult where
  title : String
  streams : List StreamInfo
  subtitles : List SubtitleInfo := []
  originalUrl : String
  deriving DecidableEq

/-- The option fields of DownloadOptions that the orchestrator's selection and
conversion logic reads.  Callbacks are modelled by the emitted update trace
below. -/
structure DownloadOptions where
  outputPath : String := ""
  format : Option String := none
  quality : Option String := none
  audioQuality : Option String := none
  deriving DecidableEq

/-! ### Character-level string helpers

The TypeScript source uses JavaScript string/URL primitives; they are
embedded here as structurally recursive functions over character lists so
that every definition evaluates inside the kernel. -/

/-- JavaScript String.split with a single-character separator. -/
def splitOnChar (c : Char) : List Char → List (List Char)
  | [] => [[]]
  | x :: xs =>
    if x = c then [] :: splitOnChar c xs
    else
      match splitOnChar c xs with
      | [] => [[x]]
      | g :: gs => (x :: g) :: gs

/-- Last element of a split result (JavaScript Array.pop on the result of
String.split, which is always non-empty). -/
def lastPart : List (List Char) → List Char
  | [] => []
  | [x] => x
  | _ :: y :: xs => lastPart (y :: xs)

/-- Splits a character list at the first occurrence of the pattern, returning
the parts before and after it, or none when the pattern does not occur. -/
def splitFirstSub (pat : List Char) : List Char → Option (List Char × List Char)
  | [] => none
  | x :: xs =>
    if pat.isPrefixOf (x :: xs) then some ([], (x :: xs).drop pat.length)
    else
      match splitFirstSub pat xs with
      | some (pre, post) => some (x :: pre, post)
      | none => none

/-- Characters allowed after the first letter of a URL scheme. -/
def isSchemeChar (c : Char) : Bool :=
  c.isAlphanum || c = '+' || c = '-' || c = '.'

/-- Model of the WHATWG URL parser used by the runtime (an external
facility, not repository code): a string parses as a URL exactly when it
starts with an alphabetic scheme followed by "://".  Bare filenames such as
"video.mp4" contain no scheme, so the constructor throws, which the source
converts to the non-URL branch. -/
def urlParseOk (url : String) : Bool :=
  match splitFirstSub "://".toList url.toList with
  | some (scheme, _) =>
    match scheme with
    | [] => false
    | c :: rest => c.isAlpha && rest.all isSchemeChar
  | none => false

/-- Drops a query string or fragment from the part after the authority. -/
def dropQueryFragment (cs : List Char) : List Char :=
  cs.takeWhile (fun c => c ≠ '?' && c ≠ '#')

/-- Model of URL.pathname for absolute http(s)-style URLs: everything from
the first slash after the authority, with query/fragment removed; the root
path is "/" when the URL has no path component. -/
def urlPathname (url : String) : List Char :=
  match splitFirstSub "://".toList url.toList with
  | some (_, rest) =>
    match (dropQueryFragment rest).dropWhile (fun c => c ≠ '/') with
    | [] => ['/']
    | p => p
  | none => []

/-- Lowercases a character list (JavaScript String.toLowerCase for the ASCII
labels this program manipulates). -/
def toLowerChars (cs : List Char) : List Char :=
  cs.map Char.toLower

/-- JavaScript String.replace with a plain-string pattern: removes the first
occurrence of the pattern (the source replaces it with the empty string). -/
def removeFirst (s pat : String) : String :=
  match splitFirstSub pat.toList s.toList with
  | some (pre, post) => String.mk (pre ++ post)
  | none => s

/-! ### Stream selection (MediaDownloader.selectBestStream) -/

/-- The quality ladder hard-coded in MediaDownloader.selectBestStream. -/
def qualityOrder : List String :=
  ["2160p", "1440p", "1080p", "720p", "480p", "360p", "240p"]

/-- Index of a label in a ladder, counting from zero. -/
def ladderIndex : List String → String → Option Nat
  | [], _ => none
  | x :: xs, q => if x = q then some 0 else (ladderIndex xs q).map (· + 1)

/-- JavaScript indexOf plus the source's (index === -1 ? 999 : index)
adjustment: a label absent from the ladder ranks 999, after every ladder
entry. -/
def qualityRank (q : String) : Nat :=
  match ladderIndex qualityOrder q with
  | some i => i
  | none => 999

/-- The comparison the source passes to Array.prototype.sort, as a relation:
smaller ladder rank sorts first.  Array.prototype.sort is stable, which
List.insertionSort reproduces. -/
def streamLE (a b : StreamInfo) : Prop :=
  qualityRank a.quality ≤ qualityRank b.quality

instance : DecidableRel streamLE := fun a b =>
  inferInstanceAs (Decidable (qualityRank a.quality ≤ qualityRank b.quality))

instance : IsTotal StreamInfo streamLE :=
  ⟨fun a b => Nat.le_total (qualityRank a.quality) (qualityRank b.quality)⟩

instance : IsTrans StreamInfo streamLE :=
  ⟨fun _ _ _ h1 h2 => Nat.le_trans h1 h2⟩

/-- The second and third stages of MediaDownloader.selectBestStream: exact
format match if a truthy format hint is given, else the first element of the
stably sorted list; none only when the list is empty. -/
def selectByFormatOrLadder (streams : List StreamInfo) (fopt : Option String) :
    Option StreamInfo :=
  let formatPick : Option StreamInfo :=
    match fopt with
    | some f => if f = "" then none else streams.find? (fun s => s.format == f)
    | none => none
  match formatPick with
  | some s => some s
  | none => (List.insertionSort streamLE streams).head?

/-- MediaDownloader.selectBestStream: exact quality match if a truthy quality
hint is given, else the format-or-ladder stages.  JavaScript truthiness makes
an empty-string hint equivalent to no hint. -/
def selectBestStream (streams : List StreamInfo) (options : DownloadOptions) :
    Option StreamInfo :=
  let qualityPick : Option StreamInfo :=
    match options.quality with
    | some q => if q = "" then none else streams.find? (fun s => s.quality == q)
    | none => none
  match qualityPick with
  | some s => some s
  | none => selectByFormatOrLadder streams options.format

/-- The quality ladder exactly as the specification words it, for comparison
with the one in the code: it additionally lists 144p and the audio ranks
high/medium/low before unrecognized labels. -/
def specQualityOrder : List String :=
  ["2160p", "1440p", "1080p", "720p", "480p", "360p", "240p", "144p",
   "high", "medium", "low"]

/-- Rank along the specification's ladder; unrecognized labels rank 999. -/
def specQualityRank (q : String) : Nat :=
  match ladderIndex specQualityOrder q with
  | some i => i
  | none => 999

/-- The quality hint names a label that some stream carries (the condition
under which the source's first selection stage fires and succeeds). -/
def qualityHintApplies (streams : List StreamInfo) (options : DownloadOptions) : Prop :=
  ∃ q, options.quality = some q ∧ q ≠ "" ∧ ∃ t ∈ streams, t.quality = q

/-- The format hint names a container that some stream carries. -/
def formatHintApplies (streams : List StreamInfo) (options : DownloadOptions) : Prop :=
  ∃ f, options.format = some f ∧ f ≠ "" ∧ ∃ t ∈ streams, t.format = f

/-! ### Extractor registry and dispatch (MediaDownloader) -/

/-- The capability set every extractor implements.  Only the predicate
matters for dispatch. -/
structure Extractor where
  name : String
  test : String → Bool

/-- MediaDownloader.findExtractor: the first registered extractor whose test
accepts the URL. -/
def findExtractor (extractors : List Extractor) (url : String) : Option Extractor :=
  extractors.find? (fun e => e.test url)

/-- MediaDownloader.extract up to the dispatch decision: a missing match
raises the NoExtractorFound error with the source's message. -/
def dispatchExtractor (extractors : List Extractor) (url : String) :
    Except String Extractor :=
  match findExtractor extractors url with
  | some e => Except.ok e
  | none => Except.error ("No extractor found for URL: " ++ url)

/-! ### Generic HTTP file extractor (extractors/http.ts) -/

/-- Result of the metadata probe HttpClient.getFileInfo (headers of a HEAD
response). -/
structure FileInfo where
  contentLength : Option Nat := none
  contentType : Option String := none
  filename : Option String := none
  deriving DecidableEq

/-- The media extensions HttpExtractor.test recognizes. -/
def mediaExtensions : List String :=
  [".mp4", ".mp3", ".avi", ".mkv", ".webm", ".m4a", ".wav", ".flac"]

/-- HttpExtractor.test: the URL parses and its lowercased pathname ends in a
known media extension. -/
def httpTest (url : String) : Bool :=
  if urlParseOk url then
    mediaExtensions.any (fun ext => ext.toList.isSuffixOf (toLowerChars (urlPathname url)))
  else false

/-- getFileExtension from core/common: the last dot-separated component of
the URL pathname when the argument parses as a URL, of the whole argument
otherwise; empty results become "unknown". -/
def getFileExtension (urlOrFilename : String) : String :=
  let extOf := fun (cs : List Char) =>
    match lastPart (splitOnChar '.' cs) with
    | [] => "unknown"
    | e => String.mk e
  if urlParseOk urlOrFilename then extOf (urlPathname urlOrFilename)
  else extOf urlOrFilename.toList

/-- The size-bucket heuristic in HttpExtractor.extract.  JavaScript
truthiness: a missing or zero Content-Length skips every bucket, leaving the
label "unknown". -/
def sizeQuality (fileSize : Option Nat) : String :=
  match fileSize with
  | some n =>
    if n = 0 then "unknown"
    else if n > 100 * 1024 * 1024 then "1080p"
    else if n > 50 * 1024 * 1024 then "720p"
    else if n > 20 * 1024 * 1024 then "480p"
    else "360p"
  | none => "unknown"

/-- HttpExtractor.extract given the probe result: synthesizes exactly one
stream whose quality comes from the size bucket and whose format is the
filename extension. -/
def httpExtract (url : String) (fileInfo : FileInfo) : ExtractResult :=
  let urlFilename :=
    match lastPart (splitOnChar '/' (urlPathname url)) with
    | [] => "download".toList
    | f => f
  let filename :=
    match fileInfo.filename with
    | some f => if f = "" then urlFilename else f.toList
    | none => urlFilename
  let extension := getFileExtension (String.mk filename)
  let stream : StreamInfo :=
    { url := url
      format := extension
      quality := sizeQuality fileInfo.contentLength
      fileSize := fileInfo.contentLength }
  { title := removeFirst (String.mk filename) ("." ++ extension)
    originalUrl := url
    streams := [stream]
    subtitles := [] }

/-! ### Audio conversion adapter (AudioProcessor) -/

/-- AudioProcessor.getQualitySettings: the bitrate the quality tier maps to,
none when the format takes no bitrate (wav, or a format outside the switch). -/
def getQualitySettings (format : String) (quality : String) : Option String :=
  if format = "mp3" then
    some (if quality = "low" then "128k"
          else if quality = "high" then "320k"
          else "192k")
  else if format = "wav" then none
  else if format = "aac" || format = "m4a" then
    some (if quality = "low" then "96k"
          else if quality = "high" then "256k"
          else "128k")
  else none

/-- AudioProcessor.getAudioCodec. -/
def getAudioCodec (format : String) : String :=
  if format = "mp3" then "libmp3lame"
  else if format = "wav" then "pcm_s16le"
  else if format = "aac" || format = "m4a" then "aac"
  else "libmp3lame"

/-- The transcoder invocation AudioProcessor.convertToAudio builds before
running the subprocess. -/
structure FfmpegCommand where
  noVideo : Bool
  audioCodec : String
  outputFormat : String
  audioBitrate : Option String
  deriving DecidableEq

/-- The command construction in AudioProcessor.convertToAudio: the video
stream is always stripped, aac uses the adts container, and the bitrate is
applied only when the quality settings carry one. -/
def buildConversionCommand (format : String) (quality : String) : FfmpegCommand :=
  { noVideo := true
    audioCodec := getAudioCodec format
    outputFormat := if format = "aac" then "adts" else format
    audioBitrate := getQualitySettings format quality }

/-- AudioProcessor.isAudioFormat. -/
def isAudioFormat (format : String) : Bool :=
  ["mp3", "wav", "aac", "m4a", "ogg", "flac"].contains
    (String.mk (toLowerChars format.toList))

/-! ### Download engine (HttpClient.downloadFile)

One call is modelled against an environment that fixes, for each attempt
index, how that attempt goes.  The axios request promise settles when the
response headers arrive, before any body chunk is streamed, and the retry
loop's catch only sees errors thrown by that await; so an attempt that is
retried has emitted no progress events, while an attempt whose write stream
fails afterwards rejects the returned promise directly, outside the loop's
try/catch.  Progress events carry the cumulative byte count loaded so far. -/

/-- How one HTTP attempt of the engine goes. -/
inductive AttemptOutcome
  /-- The request itself failed (thrown inside the try, caught, retried). -/
  | requestFail (msg : String)
  /-- The request succeeded, the body streamed the given cumulative byte
  counts, then the write stream failed. -/
  | writeFail (loads : List Nat) (msg : String)
  /-- The request succeeded, the body streamed the given cumulative byte
  counts, and the writer finished. -/
  | success (loads : List Nat)

/-- How a downloadFile call can end. -/
inductive DownloadResult
  /-- Resolved with the output path. -/
  | ok
  /-- The thrown "Download failed after N attempts" error. -/
  | failedAfter (attempts : Nat) (lastError : String)
  /-- The raw write-stream error, rejected without retry. -/
  | streamError (msg : String)
  /-- The unreachable throw after the loop (hit only when retries = 0). -/
  | loopExit
  deriving DecidableEq

/-- Everything observable about one downloadFile call: how it ended, how many
HTTP attempts ran, the delays slept between consecutive attempts, whether a
file is left at the destination, and the concatenated cumulative byte counts
of all emitted progress events. -/
structure EngineRun where
  result : DownloadResult
  attemptsMade : Nat
  waitsMs : List Nat
  fileAtDest : Bool
  emittedLoads : List Nat
  deriving DecidableEq

/-- The while loop of HttpClient.downloadFile.  The counter attempt starts at
0 and strictly increases on every caught failure, so the loop runs at most
retries iterations; the fuel argument, kept equal to retries minus attempt,
makes that bound structural.  A caught failure increments attempt, rethrows
as failedAfter when attempt has reached retries, and otherwise sleeps
1000 × attempt milliseconds before the next iteration. -/
def downloadLoop (outcomes : Nat → AttemptOutcome) (retries : Nat) :
    Nat → Nat → EngineRun
  | _, 0 =>
    { result := .loopExit, attemptsMade := 0, waitsMs := [],
      fileAtDest := false, emittedLoads := [] }
  | attempt, fuel + 1 =>
    match outcomes attempt with
    | .success loads =>
      { result := .ok, attemptsMade := 1, waitsMs := [],
        fileAtDest := true, emittedLoads := loads }
    | .writeFail loads msg =>
      { result := .streamError msg, attemptsMade := 1, waitsMs := [],
        fileAtDest := false, emittedLoads := loads }
    | .requestFail msg =>
      if attempt + 1 ≥ retries then
        { result := .failedAfter retries msg, attemptsMade := 1, waitsMs := [],
          fileAtDest := false, emittedLoads := [] }
      else
        let rest := downloadLoop outcomes retries (attempt + 1) fuel
        { result := rest.result
          attemptsMade := rest.attemptsMade + 1
          waitsMs := 1000 * (attempt + 1) :: rest.waitsMs
          fileAtDest := rest.fileAtDest
          emittedLoads := rest.emittedLoads }

/-- One call of HttpClient.downloadFile with the given retry budget. -/
def downloadFile (retries : Nat) (outcomes : Nat → AttemptOutcome) : EngineRun :=
  downloadLoop outcomes retries 0 retries

/-! ### Progress reporting -/

/-- Math.round of 100 × loaded / total, computed on exact rationals:
floor of 100 × loaded / total + one half. -/
def jsRoundPct (loaded total : Nat) : Nat :=
  (200 * loaded + total) / (2 * total)

/-- The percent values the engine writes into the job record, one per chunk
event: the source guards each update with the truthiness of the reported
total, so a zero or unknown total emits nothing. -/
def enginePercents (total : Nat) (loads : List Nat) : List Nat :=
  if total = 0 then [] else loads.map (fun l => jsRoundPct l total)

/-- One update as seen by the job record and the progress callback. -/
structure ProgressUpdate where
  status : JobStatus
  percent : Nat
  deriving DecidableEq

/-- The sequence of updates one MediaDownloader.download call emits: the
pending update at job creation, the downloading update at percent 0, one
downloading update per engine chunk event, and a final update — completed at
percent 100 when the engine (and, where requested, conversion) succeeded,
error at the last reported percent otherwise. -/
def downloadTrace (total : Nat) (run : EngineRun) : List ProgressUpdate :=
  let chunkUpdates :=
    (enginePercents total run.emittedLoads).map
      (fun p => ProgressUpdate.mk JobStatus.downloading p)
  let lastPct :=
    match (enginePercents total run.emittedLoads).getLast? with
    | some p => p
    | none => 0
  let finalUpdate :=
    match run.result with
    | .ok => ProgressUpdate.mk JobStatus.completed 100
    | _ => ProgressUpdate.mk JobStatus.error lastPct
  ProgressUpdate.mk JobStatus.pending 0 ::
    ProgressUpdate.mk JobStatus.downloading 0 :: chunkUpdates ++ [finalUpdate]

/-- The per-attempt environment assumption behind progress monotonicity:
cumulative byte counts within one response body never decrease. -/
def attemptLoadsChain : AttemptOutcome → Prop
  | .requestFail _ => True
  | .writeFail loads _ => List.Chain' (fun a b => a ≤ b) loads
  | .success loads => List.Chain' (fun a b => a ≤ b) loads

/-! ### Orchestrator (MediaDownloader.download)

The call is modelled at the level of its sequencing decisions: the outcomes
of the extraction, engine and conversion stages are inputs, and the model
records what the call returns, whether the job's entry is still in the
activeDownloads table when it returns or re-raises, and the status field of
the tracked record.  The source inserts the job only after extraction
succeeds, deletes it on the two success returns, and in the catch block
marks the table's entry error without deleting it. -/

instance {ε α : Type} [DecidableEq ε] [DecidableEq α] : DecidableEq (Except ε α) :=
  fun a b =>
    match a, b with
    | .error x, .error y =>
      if h : x = y then .isTrue (congrArg Except.error h)
      else .isFalse (fun hh => h (Except.error.inj hh))
    | .ok x, .ok y =>
      if h : x = y then .isTrue (congrArg Except.ok h)
      else .isFalse (fun hh => h (Except.ok.inj hh))
    | .error _, .ok _ => .isFalse (fun hh => Except.noConfusion hh)
    | .ok _, .error _ => .isFalse (fun hh => Except.noConfusion hh)

/-- Observable end state of one MediaDownloader.download call. -/
structure OrchRun where
  result : Except String Unit
  jobInTable : Bool
  jobStatus : Option JobStatus
  deriving DecidableEq

/-- The guard options.format && AudioProcessor.isAudioFormat(options.format)
in MediaDownloader.download. -/
def audioConversionRequested (options : DownloadOptions) : Bool :=
  match options.format with
  | some f => f ≠ "" && isAudioFormat f
  | none => false

/-- MediaDownloader.download, with the network-bound stages abstracted by
their outcomes.  Extraction failure happens before the job is inserted, so
the catch block finds no table entry to mark; every later failure marks the
inserted entry error and leaves it in the table; only the two success paths
delete the entry. -/
def orchestrate (extractOutcome : Except String ExtractResult)
    (options : DownloadOptions) (engineOutcome : Except String Unit)
    (conversionOutcome : Except String Unit) : OrchRun :=
  match extractOutcome with
  | .error msg => { result := .error msg, jobInTable := false, jobStatus := none }
  | .ok extractResult =>
    match selectBestStream extractResult.streams options with
    | none =>
      { result := .error "No suitable stream found", jobInTable := true,
        jobStatus := some .error }
    | some _ =>
      match engineOutcome with
      | .error msg =>
        { result := .error msg, jobInTable := true, jobStatus := some .error }
      | .ok _ =>
        if audioConversionRequested options then
          match conversionOutcome with
          | .ok _ =>
            { result := .ok (), jobInTable := false, jobStatus := some .completed }
          | .error msg =>
            { result := .error ("Audio conversion failed: " ++ msg),
              jobInTable := true, jobStatus := some .error }
        else
          { result := .ok (), jobInTable := false, jobStatus := some .completed }

/-! ## Theorems -/

/-- Claim C6: dispatch returns the first registered extractor, in
registration order, whose test predicate accepts the URL; with two matching
extractors the earlier-registered one wins; and with no matching extractor
the extraction fails with the NoExtractorFound error message. -/
theorem dispatch_first_match_policy (url : String) :
    (∀ pre post : List Extractor, ∀ e : Extractor,
        (∀ x ∈ pre, x.test url = false) → e.test url = true →
        findExtractor (pre ++ e :: post) url = some e) ∧
    (∀ a b : Extractor, a.test url = true → b.test url = true →
        findExtractor [a, b] url = some a) ∧
    (∀ exs : List Extractor, (∀ x ∈ exs, x.test url = false) →
        dispatchExtractor exs url =
          Except.error ("No extractor found for URL: " ++ url)) := by
  have hfirst : ∀ pre post : List Extractor, ∀ e : Extractor,
      (∀ x ∈ pre, x.test url = false) → e.test url = true →
      findExtractor (pre ++ e :: post) url = some e := by
    intro pre post e hpre he
    induction pre with
    | nil => simp [findExtractor, List.find?_cons, he]
    | cons x xs ih =>
      have hx : x.test url = false := hpre x (List.mem_cons_self x xs)
      have hxs : ∀ y ∈ xs, y.test url = false :=
        fun y hy => hpre y (List.mem_cons_of_mem x hy)
      simpa [findExtractor, List.find?_cons, hx] using ih hxs
  refine ⟨hfirst, ?_, ?_⟩
  · intro a b ha _
    exact hfirst [] [b] a (by simp) ha
  · intro exs hnone
    have hfind : findExtractor exs url = none :=
      List.find?_eq_none.mpr (fun x hx => by simp [hnone x hx])
    simp [dispatchExtractor, hfind]

/-- Witness for C6: with two always-matching extractors A and B, registered
in that order, dispatch picks A. -/
theorem dispatch_first_match_policy_witness :
    findExtractor [{ name := "A", test := fun _ => true },
                   { name := "B", test := fun _ => true }] "https://x.test/v" =
      some { name := "A", test := fun _ => true } :=
  (dispatch_first_match_policy "https://x.test/v").2.1
    { name := "A", test := fun _ => true }
    { name := "B", test := fun _ => true } rfl rfl

/-- Claim C7: the generic-file extractor on a 75000000-byte probe result for
https://example.com/video.mp4 yields exactly one stream, with quality 720p
(the size falls in the greater-than-50MB bucket but not the 100MB one) and
format mp4, and title video. -/
theorem http_extract_size_bucket_scenario :
    httpExtract "https://example.com/video.mp4"
      { contentLength := some 75000000, contentType := some "video/mp4",
        filename := none } =
    { title := "video", originalUrl := "https://example.com/video.mp4",
      streams := [{ url := "https://example.com/video.mp4", format := "mp4",
                    quality := "720p", fileSize := some 75000000 }],
      subtitles := [] } := by decide

/-- Claim C8: the conversion adapter invoked with format mp3 and tier high
builds a transcoder command with bitrate 320k and the video stream stripped;
the full tier-to-bitrate table is 128k/192k/320k for mp3 and 96k/128k/256k
for aac and m4a, and wav never receives a bitrate. -/
theorem audio_conversion_bitrate_table :
    buildConversionCommand "mp3" "high" =
      { noVideo := true, audioCodec := "libmp3lame", outputFormat := "mp3",
        audioBitrate := some "320k" } ∧
    getQualitySettings "mp3" "low" = some "128k" ∧
    getQualitySettings "mp3" "medium" = some "192k" ∧
    getQualitySettings "mp3" "high" = some "320k" ∧
    getQualitySettings "aac" "low" = some "96k" ∧
    getQualitySettings "aac" "medium" = some "128k" ∧
    getQualitySettings "aac" "high" = some "256k" ∧
    getQualitySettings "m4a" "low" = some "96k" ∧
    getQualitySettings "m4a" "medium" = some "128k" ∧
    getQualitySettings "m4a" "high" = some "256k" ∧
    (∀ tier : String, getQualitySettings "wav" tier = none) ∧
    (∀ tier : String, (buildConversionCommand "wav" tier).noVideo = true) := by
  refine ⟨by decide, by decide, by decide, by decide, by decide, by decide,
    by decide, by decide, by decide, by decide, ?_, ?_⟩
  · intro tier
    simp [getQualitySettings]
  · intro tier
    rfl

/-- Claim C9: whenever the generic-file extractor accepts a URL and the
metadata probe reports no Content-Length, extraction still yields exactly
one stream and its quality is the label unknown, not a size-bucket label. -/
theorem http_extract_unknown_without_length (url : String) (info : FileInfo)
    (ht : httpTest url = true) (hcl : info.contentLength = none) :
    ∃ s, (httpExtract url info).streams = [s] ∧ s.quality = "unknown" ∧
      s.fileSize = none := by
  refine ⟨_, rfl, ?_, ?_⟩ <;> simp [httpExtract, sizeQuality, hcl]

/-- Witness for C9 at a concrete accepted URL with an empty probe result. -/
theorem http_extract_unknown_without_length_witness :
    (httpExtract "https://example.com/song.mp3" {}).streams.map
      (fun s => s.quality) = ["unknown"] := by
  obtain ⟨s, h1, h2, _⟩ :=
    http_extract_unknown_without_length "https://example.com/song.mp3" {}
      (by decide) rfl
  rw [h1, List.map_cons, h2]
  rfl

/-- Claim C3: with maxRetries 3 and every HTTP attempt failing, the engine
performs exactly 3 attempts, surfaces the DownloadFailed error carrying the
attempt count 3, and sleeps 1000 × 1 then 1000 × 2 milliseconds between the
consecutive attempts. -/
theorem download_retry_exhaustion (outcomes : Nat → AttemptOutcome)
    (h : ∀ i, i < 3 → ∃ m, outcomes i = AttemptOutcome.requestFail m) :
    (downloadFile 3 outcomes).attemptsMade = 3 ∧
    (∃ m, (downloadFile 3 outcomes).result = DownloadResult.failedAfter 3 m) ∧
    (downloadFile 3 outcomes).waitsMs = [1000 * 1, 1000 * 2] := by
  obtain ⟨m0, h0⟩ := h 0 (by omega)
  obtain ⟨m1, h1⟩ := h 1 (by omega)
  obtain ⟨m2, h2⟩ := h 2 (by omega)
  refine ⟨?_, ⟨m2, ?_⟩, ?_⟩ <;>
    simp [downloadFile, downloadLoop, h0, h1, h2]

/-- Witness for C3: the all-attempts-fail environment. -/
theorem download_retry_exhaustion_witness :
    (downloadFile 3 (fun _ => AttemptOutcome.requestFail "refused")).attemptsMade = 3 ∧
    (∃ m, (downloadFile 3 (fun _ => AttemptOutcome.requestFail "refused")).result =
      DownloadResult.failedAfter 3 m) ∧
    (downloadFile 3 (fun _ => AttemptOutcome.requestFail "refused")).waitsMs =
      [1000 * 1, 1000 * 2] :=
  download_retry_exhaustion (fun _ => AttemptOutcome.requestFail "refused")
    (fun _ _ => ⟨"refused", rfl⟩)

/-- A run of the engine loop that ends in the DownloadFailed error leaves no
file at the destination: the error arises only from request-stage failures,
which never create the write stream. -/
theorem downloadLoop_failedAfter_no_file (outcomes : Nat → AttemptOutcome)
    (retries : Nat) :
    ∀ fuel attempt a m,
      (downloadLoop outcomes retries attempt fuel).result =
        DownloadResult.failedAfter a m →
      (downloadLoop outcomes retries attempt fuel).fileAtDest = false := by
  intro fuel
  induction fuel with
  | zero =>
    intro attempt a m h
    simp [downloadLoop] at h
  | succ n ih =>
    intro attempt a m h
    cases houtcome : outcomes attempt with
    | requestFail msg =>
      by_cases hge : attempt + 1 ≥ retries
      · simp [downloadLoop, houtcome, hge]
      · simp only [downloadLoop, houtcome, if_neg hge] at h ⊢
        exact ih (attempt + 1) a m h
    | writeFail loads msg => simp [downloadLoop, houtcome] at h
    | success loads => simp [downloadLoop, houtcome] at h

/-- Claim C4: after a call of the engine terminates with DownloadFailed, no
file exists at the destination path. -/
theorem no_file_after_download_failed (retries : Nat)
    (outcomes : Nat → AttemptOutcome) (a : Nat) (m : String)
    (h : (downloadFile retries outcomes).result = DownloadResult.failedAfter a m) :
    (downloadFile retries outcomes).fileAtDest = false :=
  downloadLoop_failedAfter_no_file outcomes retries retries 0 a m h

/-- Witness for C4: three refused attempts leave nothing on disk. -/
theorem no_file_after_download_failed_witness :
    (downloadFile 3 (fun _ => AttemptOutcome.requestFail "reset")).fileAtDest = false :=
  no_file_after_download_failed 3 (fun _ => AttemptOutcome.requestFail "reset")
    3 "reset" (by decide)

/-- A write-stream failure at the k-th attempt (after k request-stage
failures) makes the loop reject with the raw stream error after exactly
k + 1 attempts, with the partial file deleted. -/
theorem downloadLoop_writeFail_rejects (outcomes : Nat → AttemptOutcome)
    (retries : Nat) (loads : List Nat) (msg : String) :
    ∀ k fuel attempt, attempt + fuel = retries → k < fuel →
      (∀ i, i < k → ∃ m, outcomes (attempt + i) = AttemptOutcome.requestFail m) →
      outcomes (attempt + k) = AttemptOutcome.writeFail loads msg →
      (downloadLoop outcomes retries attempt fuel).result =
        DownloadResult.streamError msg ∧
      (downloadLoop outcomes retries attempt fuel).attemptsMade = k + 1 ∧
      (downloadLoop outcomes retries attempt fuel).fileAtDest = false := by
  intro k
  induction k with
  | zero =>
    intro fuel attempt hinv hk hpre hw
    rcases fuel with _ | n
    · omega
    · rw [Nat.add_zero] at hw
      simp [downloadLoop, hw]
  | succ k ih =>
    intro fuel attempt hinv hk hpre hw
    rcases fuel with _ | n
    · omega
    · obtain ⟨m, hm⟩ := hpre 0 (by omega)
      rw [Nat.add_zero] at hm
      have hlt : ¬ attempt + 1 ≥ retries := by omega
      have hrec := ih n (attempt + 1) (by omega) (by omega)
        (fun i hi => by
          have hmi := hpre (i + 1) (by omega)
          rwa [show attempt + (i + 1) = attempt + 1 + i by omega] at hmi)
        (by rwa [show attempt + (k + 1) = attempt + 1 + k by omega] at hw)
      simp only [downloadLoop, hm, if_neg hlt]
      exact ⟨hrec.1, by rw [hrec.2.1], hrec.2.2⟩

/-- Claim C10: when an attempt's request succeeds but the destination write
stream then fails, the call rejects at once with the raw stream error — the
partial file is deleted, no further attempt runs, and the surfaced error is
not the DownloadFailed one — whatever the configured retry count. -/
theorem write_stream_failure_rejects_raw (retries k : Nat)
    (outcomes : Nat → AttemptOutcome) (loads : List Nat) (msg : String)
    (hk : k < retries)
    (hpre : ∀ i, i < k → ∃ m, outcomes i = AttemptOutcome.requestFail m)
    (hw : outcomes k = AttemptOutcome.writeFail loads msg) :
    (downloadFile retries outcomes).result = DownloadResult.streamError msg ∧
    (downloadFile retries outcomes).attemptsMade = k + 1 ∧
    (downloadFile retries outcomes).fileAtDest = false ∧
    ∀ a m2, (downloadFile retries outcomes).result ≠
      DownloadResult.failedAfter a m2 := by
  have h := downloadLoop_writeFail_rejects outcomes retries loads msg k retries 0
    (by omega) hk
    (fun i hi => by simpa using hpre i hi)
    (by simpa using hw)
  refine ⟨h.1, h.2.1, h.2.2, ?_⟩
  intro a m2 hcontra
  have : DownloadResult.streamError msg = DownloadResult.failedAfter a m2 := by
    rw [← h.1]
    exact hcontra
  exact DownloadResult.noConfusion this

/-- The environment of the C10 witness: the first attempt's request fails,
the second streams ten bytes and then hits a write-stream error. -/
def writeFailEnv : Nat → AttemptOutcome := fun i =>
  match i with
  | 0 => AttemptOutcome.requestFail "net"
  | _ => AttemptOutcome.writeFail [10] "disk"

/-- Witness for C10: with retries 3, the write failure on the second attempt
surfaces raw after exactly two attempts and deletes the partial file. -/
theorem write_stream_failure_rejects_raw_witness :
    (downloadFile 3 writeFailEnv).result = DownloadResult.streamError "disk" ∧
    (downloadFile 3 writeFailEnv).attemptsMade = 2 ∧
    (downloadFile 3 writeFailEnv).fileAtDest = false := by
  have h := write_stream_failure_rejects_raw 3 1 writeFailEnv [10] "disk"
    (by omega)
    (fun i hi => by
      have hi0 : i = 0 := by omega
      subst hi0
      exact ⟨"net", rfl⟩)
    rfl
  exact ⟨h.1, h.2.1, h.2.2.1⟩

/-- An extraction result with no streams, driving the orchestrator into its
NoSuitableStream error path. -/
def emptyStreamsExtract : ExtractResult :=
  { title := "t", streams := [], originalUrl := "https://example.com/nil.mp4" }

/-- Counterexample to claim C1 as stated: a download call that ends in the
error outcome re-raises with the job's entry still in the active-downloads
table — the catch block marks the entry error but never deletes it. -/
theorem orchestrate_error_keeps_entry_cex :
    (orchestrate (Except.ok emptyStreamsExtract) {} (Except.ok ())
        (Except.ok ())).result = Except.error "No suitable stream found" ∧
    (orchestrate (Except.ok emptyStreamsExtract) {} (Except.ok ())
        (Except.ok ())).jobInTable = true := by decide

/-- Claim C1 as amended: the job's entry is deleted from the live table
exactly on the completed outcome; on the error outcome the entry is not
deleted — it stays in the table marked error — except when extraction itself
failed, in which case the job had never been inserted (the insert happens
only after extraction succeeds, and the catch block then finds no entry to
mark). -/
theorem orchestrate_job_table_policy (eo : Except String ExtractResult)
    (opts : DownloadOptions) (en : Except String Unit)
    (cv : Except String Unit) :
    ((orchestrate eo opts en cv).result = Except.ok () →
      (orchestrate eo opts en cv).jobInTable = false ∧
      (orchestrate eo opts en cv).jobStatus = some JobStatus.completed) ∧
    (∀ msg, (orchestrate eo opts en cv).result = Except.error msg →
      ((orchestrate eo opts en cv).jobInTable = true ∧
        (orchestrate eo opts en cv).jobStatus = some JobStatus.error) ∨
      ((orchestrate eo opts en cv).jobInTable = false ∧
        (orchestrate eo opts en cv).jobStatus = none ∧
        eo = Except.error msg)) := by
  rcases eo with msg0 | er
  · simp [orchestrate]
  · rcases hsel : selectBestStream er.streams opts with _ | s
    · simp [orchestrate, hsel]
    · rcases en with msg1 | u
      · simp [orchestrate, hsel]
      · by_cases hc : audioConversionRequested opts
        · rcases cv with msg2 | u2 <;> simp [orchestrate, hsel, hc]
        · simp [orchestrate, hsel, hc]

/-- Witness for amended C1: a successful download deletes the entry and a
failed one keeps it. -/
theorem orchestrate_job_table_policy_witness :
    (orchestrate
        (Except.ok { title := "t",
                     streams := [{ url := "a", format := "mp4", quality := "720p" }],
                     originalUrl := "u" })
        {} (Except.ok ()) (Except.ok ())).jobInTable = false :=
  ((orchestrate_job_table_policy
      (Except.ok { title := "t",
                   streams := [{ url := "a", format := "mp4", quality := "720p" }],
                   originalUrl := "u" })
      {} (Except.ok ()) (Except.ok ())).1 (by decide)).1

/-- Rounding a percentage is monotone in the byte count. -/
theorem jsRoundPct_mono (total : Nat) {a b : Nat} (h : a ≤ b) :
    jsRoundPct a total ≤ jsRoundPct b total := by
  unfold jsRoundPct
  exact Nat.div_le_div_right (by omega)

/-- Non-decreasing byte counts give non-decreasing reported percents. -/
theorem enginePercents_chain (total : Nat) {loads : List Nat}
    (h : List.Chain' (fun a b => a ≤ b) loads) :
    List.Chain' (fun a b => a ≤ b) (enginePercents total loads) := by
  unfold enginePercents
  split
  · exact List.chain'_nil
  · exact (List.chain'_map _).mpr (h.imp (fun a b hab => jsRoundPct_mono total hab))

/-- The engine loop's emitted byte counts are exactly those of the attempt
that got past the request stage, so they inherit that attempt's
non-decreasing order; retried attempts contribute nothing. -/
theorem downloadLoop_emitted_chain (outcomes : Nat → AttemptOutcome)
    (retries : Nat) (hmono : ∀ i, attemptLoadsChain (outcomes i)) :
    ∀ fuel attempt,
      List.Chain' (fun a b => a ≤ b)
        ((downloadLoop outcomes retries attempt fuel).emittedLoads) := by
  intro fuel
  induction fuel with
  | zero => intro attempt; simp [downloadLoop]
  | succ n ih =>
    intro attempt
    have hatt := hmono attempt
    cases houtcome : outcomes attempt with
    | requestFail msg =>
      by_cases hge : attempt + 1 ≥ retries
      · simp [downloadLoop, houtcome, hge]
      · simp only [downloadLoop, houtcome, if_neg hge]
        exact ih (attempt + 1)
    | writeFail loads msg =>
      rw [houtcome] at hatt
      simpa [downloadLoop, houtcome] using hatt
    | success loads =>
      rw [houtcome] at hatt
      simpa [downloadLoop, houtcome] using hatt

/-- Filtering the emitted trace down to its downloading-status updates keeps
the initial zero-percent update and the per-chunk updates, nothing else. -/
theorem downloadTrace_filter_downloading (total : Nat) (run : EngineRun) :
    (downloadTrace total run).filter
        (fun u => decide (u.status = JobStatus.downloading)) =
      ProgressUpdate.mk JobStatus.downloading 0 ::
        (enginePercents total run.emittedLoads).map
          (fun p => ProgressUpdate.mk JobStatus.downloading p) := by
  have hchunk : ∀ ps : List Nat,
      (ps.map (fun p => ProgressUpdate.mk JobStatus.downloading p)).filter
          (fun u => decide (u.status = JobStatus.downloading)) =
        ps.map (fun p => ProgressUpdate.mk JobStatus.downloading p) := by
    intro ps
    induction ps with
    | nil => rfl
    | cons x xs ihx => simpa [List.filter_cons] using ihx
  unfold downloadTrace
  cases hres : run.result with
  | ok => simp [List.filter_cons, List.filter_append, hchunk]
  | failedAfter a m => simp [List.filter_cons, List.filter_append, hchunk]
  | streamError m => simp [List.filter_cons, List.filter_append, hchunk]
  | loopExit => simp [List.filter_cons, List.filter_append, hchunk]

/-- Claim C2: over one download call, every update emitted while the job's
status is downloading carries a non-decreasing percent — across the engine's
internal retries too, since a retried attempt fails before its first chunk
event — and the update that switches the status to completed carries exactly
100. -/
theorem progress_monotone_and_completes_at_100 (total retries : Nat)
    (outcomes : Nat → AttemptOutcome)
    (hmono : ∀ i, attemptLoadsChain (outcomes i)) :
    List.Chain' (fun a b => a ≤ b)
      (((downloadTrace total (downloadFile retries outcomes)).filter
          (fun u => decide (u.status = JobStatus.downloading))).map
        ProgressUpdate.percent) ∧
    ∀ u ∈ downloadTrace total (downloadFile retries outcomes),
      u.status = JobStatus.completed → u.percent = 100 := by
  constructor
  · rw [downloadTrace_filter_downloading, List.map_cons, List.map_map]
    have hid : (ProgressUpdate.percent ∘ fun p =>
        ProgressUpdate.mk JobStatus.downloading p) = id := rfl
    rw [hid, List.map_id]
    exact List.chain'_cons'.mpr ⟨fun y _ => Nat.zero_le y,
      enginePercents_chain total
        (downloadLoop_emitted_chain outcomes retries hmono retries 0)⟩
  · intro u hu hc
    unfold downloadTrace at hu
    rcases List.mem_cons.mp hu with rfl | hu1
    · exact absurd hc (by decide)
    rcases List.mem_cons.mp hu1 with rfl | hu2
    · exact absurd hc (by decide)
    rcases List.mem_append.mp hu2 with hin | hfin
    · obtain ⟨p, _, rfl⟩ := List.mem_map.mp hin
      exact JobStatus.noConfusion hc
    · have hu3 := List.mem_singleton.mp hfin
      subst hu3
      cases hres : (downloadFile retries outcomes).result with
      | ok => rfl
      | failedAfter a m =>
        rw [hres] at hc
        exact JobStatus.noConfusion hc
      | streamError m =>
        rw [hres] at hc
        exact JobStatus.noConfusion hc
      | loopExit =>
        rw [hres] at hc
        exact JobStatus.noConfusion hc

/-- The environment of the C2 witness: the first attempt's request fails and
is retried, the second streams three growing chunk counts to completion. -/
def retriedThenStreamedEnv : Nat → AttemptOutcome := fun i =>
  match i with
  | 0 => AttemptOutcome.requestFail "flaky"
  | _ => AttemptOutcome.success [100, 500, 1000]

/-- Witness for C2 on a concrete retried download of 1000 bytes. -/
theorem progress_monotone_and_completes_at_100_witness :
    List.Chain' (fun a b => a ≤ b)
      (((downloadTrace 1000 (downloadFile 3 retriedThenStreamedEnv)).filter
          (fun u => decide (u.status = JobStatus.downloading))).map
        ProgressUpdate.percent) :=
  (progress_monotone_and_completes_at_100 1000 3 retriedThenStreamedEnv
    (fun i => by
      cases i with
      | zero => trivial
      | succ n =>
        show List.Chain' (fun a b => a ≤ b) [100, 500, 1000]
        exact List.chain'_cons.mpr ⟨by omega,
          List.chain'_cons.mpr ⟨by omega, List.chain'_singleton 1000⟩⟩)).1

/-- The head of the stably sorted stream list is a member of the original
list and carries a minimal ladder rank. -/
theorem insertionSort_head_min (l : List StreamInfo) (s : StreamInfo)
    (h : (List.insertionSort streamLE l).head? = some s) :
    s ∈ l ∧ ∀ t ∈ l, qualityRank s.quality ≤ qualityRank t.quality := by
  have hperm := List.perm_insertionSort streamLE l
  have hsorted := List.sorted_insertionSort streamLE l
  rcases hsort : List.insertionSort streamLE l with _ | ⟨hd, tl⟩
  · rw [hsort] at h
    cases h
  · rw [hsort] at h hperm hsorted
    have hhd : hd = s := by injection h
    subst hhd
    constructor
    · exact hperm.mem_iff.mp (List.mem_cons_self hd tl)
    · intro t ht
      rcases List.mem_cons.mp (hperm.mem_iff.mpr ht) with rfl | htl
      · exact Nat.le_refl _
      · exact List.rel_of_sorted_cons hsorted t htl

/-- Sorting a non-empty stream list yields a head element. -/
theorem insertionSort_head_exists (l : List StreamInfo) (hne : l ≠ []) :
    ∃ s, (List.insertionSort streamLE l).head? = some s := by
  rcases hsort : List.insertionSort streamLE l with _ | ⟨hd, tl⟩
  · exfalso
    have hperm := List.perm_insertionSort streamLE l
    rw [hsort] at hperm
    exact hne hperm.symm.eq_nil
  · exact ⟨hd, rfl⟩

/-- The format-then-ladder tail of the selection: it always picks a member
of a non-empty list, honors a truthy format hint exactly when some stream
matches it, and otherwise takes a stream of minimal ladder rank. -/
theorem selectByFormatOrLadder_spec (streams : List StreamInfo)
    (fopt : Option String) (hne : streams ≠ []) :
    ∃ s, selectByFormatOrLadder streams fopt = some s ∧ s ∈ streams ∧
      (∀ f, fopt = some f → f ≠ "" → (∃ t ∈ streams, t.format = f) →
        s.format = f) ∧
      ((¬ ∃ f, fopt = some f ∧ f ≠ "" ∧ ∃ t ∈ streams, t.format = f) →
        ∀ t ∈ streams, qualityRank s.quality ≤ qualityRank t.quality) := by
  rcases fopt with _ | f
  · obtain ⟨s, hh⟩ := insertionSort_head_exists streams hne
    obtain ⟨smem, smin⟩ := insertionSort_head_min streams s hh
    refine ⟨s, ?_, smem, ?_, fun _ => smin⟩
    · unfold selectByFormatOrLadder
      dsimp only
      exact hh
    · intro f hf
      cases hf
  · by_cases hf0 : f = ""
    · subst hf0
      obtain ⟨s, hh⟩ := insertionSort_head_exists streams hne
      obtain ⟨smem, smin⟩ := insertionSort_head_min streams s hh
      refine ⟨s, ?_, smem, ?_, fun _ => smin⟩
      · unfold selectByFormatOrLadder
        dsimp only
        rw [if_pos rfl]
        exact hh
      · intro f2 hf2 hne2
        cases hf2
        exact absurd rfl hne2
    · rcases hfind : streams.find? (fun t => t.format == f) with _ | s
      · obtain ⟨s, hh⟩ := insertionSort_head_exists streams hne
        obtain ⟨smem, smin⟩ := insertionSort_head_min streams s hh
        refine ⟨s, ?_, smem, ?_, fun _ => smin⟩
        · unfold selectByFormatOrLadder
          dsimp only
          rw [if_neg hf0, hfind]
          exact hh
        · intro f2 hf2 hne2 hex
          cases hf2
          obtain ⟨t, htmem, htfmt⟩ := hex
          have hcontra := List.find?_eq_none.mp hfind t htmem
          simp [htfmt] at hcontra
      · have smem := List.mem_of_find?_eq_some hfind
        have sfmt : s.format = f := by simpa using List.find?_some hfind
        refine ⟨s, ?_, smem, ?_, ?_⟩
        · unfold selectByFormatOrLadder
          dsimp only
          rw [if_neg hf0, hfind]
        · intro f2 hf2 hne2 hex
          cases hf2
          exact sfmt
        · intro hno
          exact absurd ⟨f, rfl, hf0, s, smem, sfmt⟩ hno

/-- Claim C5 as amended: selection is deterministic and total — exactly one
stream is chosen from any non-empty list — and it satisfies the
highest-priority criterion present: an exact quality-label match when a
truthy quality hint matches some stream, else an exact container-format
match when a truthy format hint matches some stream, else minimal rank along
the ladder the code actually carries, 2160p down to 240p, with every other
label (144p and the audio ranks included) ranking after all seven and
resolved by original list order. -/
theorem stream_selection_policy (streams : List StreamInfo)
    (opts : DownloadOptions) (hne : streams ≠ []) :
    ∃ s, selectBestStream streams opts = some s ∧ s ∈ streams ∧
      (∀ q, opts.quality = some q → q ≠ "" → (∃ t ∈ streams, t.quality = q) →
        s.quality = q) ∧
      (¬ qualityHintApplies streams opts →
        ∀ f, opts.format = some f → f ≠ "" → (∃ t ∈ streams, t.format = f) →
          s.format = f) ∧
      (¬ qualityHintApplies streams opts → ¬ formatHintApplies streams opts →
        ∀ t ∈ streams, qualityRank s.quality ≤ qualityRank t.quality) := by
  unfold selectBestStream
  rcases hq : opts.quality with _ | q
  · dsimp only
    obtain ⟨s, hs, smem, hfmt, hladder⟩ :=
      selectByFormatOrLadder_spec streams opts.format hne
    refine ⟨s, hs, smem, ?_, fun _ => hfmt, fun _ hno => hladder hno⟩
    intro q2 hq2
    cases hq2
  · by_cases hq0 : q = ""
    · subst hq0
      dsimp only
      rw [if_pos rfl]
      obtain ⟨s, hs, smem, hfmt, hladder⟩ :=
        selectByFormatOrLadder_spec streams opts.format hne
      refine ⟨s, hs, smem, ?_, fun _ => hfmt, fun _ hno => hladder hno⟩
      intro q2 hq2 hne2
      cases hq2
      exact absurd rfl hne2
    · rcases hfind : streams.find? (fun t => t.quality == q) with _ | s
      · dsimp only
        rw [if_neg hq0, hfind]
        obtain ⟨s, hs, smem, hfmt, hladder⟩ :=
          selectByFormatOrLadder_spec streams opts.format hne
        refine ⟨s, hs, smem, ?_, fun _ => hfmt, fun _ hno => hladder hno⟩
        intro q2 hq2 hne2 hex
        cases hq2
        obtain ⟨t, htmem, htq⟩ := hex
        have hcontra := List.find?_eq_none.mp hfind t htmem
        simp [htq] at hcontra
      · have smem := List.mem_of_find?_eq_some hfind
        have squal : s.quality = q := by simpa using List.find?_some hfind
        have hqha : qualityHintApplies streams opts :=
          ⟨q, hq, hq0, s, smem, squal⟩
        refine ⟨s, ?_, smem, ?_, ?_, ?_⟩
        · dsimp only
          rw [if_neg hq0, hfind]
        · intro q2 hq2 hne2 hex
          cases hq2
          exact squal
        · intro hno
          exact absurd hqha hno
        · intro hno _
          exact absurd hqha hno

/-- Witness for amended C5 on a concrete two-stream list with no hints. -/
theorem stream_selection_policy_witness :
    (selectBestStream
      [{ url := "a", format := "mp4", quality := "480p" },
       { url := "b", format := "mp4", quality := "1080p" }] {}).isSome = true := by
  obtain ⟨s, hs, _⟩ := stream_selection_policy
    [{ url := "a", format := "mp4", quality := "480p" },
     { url := "b", format := "mp4", quality := "1080p" }] {}
    (List.cons_ne_nil _ _)
  rw [hs]
  rfl

/-- A stream whose quality label appears on neither the code's ladder nor
the specification's. -/
def oddLabelStream : StreamInfo :=
  { url := "u1", format := "mp4", quality := "oddlabel" }

/-- A stream labelled 144p: on the specification's ladder but not on the
code's. -/
def p144Stream : StreamInfo :=
  { url := "u2", format := "mp4", quality := "144p" }

/-- Counterexample to claim C5 as stated: with no hints, the code does not
choose the stream ranked first by the claimed ladder — 144p is not in the
code's ladder, so it ties with the unrecognized label at rank 999 and the
stable sort keeps the unrecognized-label stream first, although the claimed
ladder ranks 144p strictly before unrecognized labels. -/
theorem stream_selection_ladder_cex :
    selectBestStream [oddLabelStream, p144Stream] {} = some oddLabelStream ∧
    specQualityRank p144Stream.quality < specQualityRank oddLabelStream.quality ∧
    qualityRank p144Stream.quality = qualityRank oddLabelStream.quality := by
  decide

end MDU
